import Mathlib

/-!
Verification development for the pharmacy round-simulation engine
(`streamlit_app_prototype.py`, with the share-allocation model also present in
`streamlit_app.py`).  Python dictionaries keyed by store name are modelled as
association lists `List (String × ℝ)`; the per-store state dictionary is
modelled as a total function `String → StoreState` (the source raises a
`KeyError` for a missing key, and every lookup proved about here is performed
on a present key).  Python floats are modelled as real numbers.
-/

noncomputable section

namespace PharmacySim

/-- Python's built-in `max` over a non-empty collection of floats, as a left
fold of the binary `max` (`max(utilities.values())`).  The `[]` case is never
reached by the source (`softmax_shares` returns early on an empty dict); `0`
is an arbitrary default. -/
def listMax : List ℝ → ℝ
  | [] => 0
  | x :: xs => xs.foldl max x

theorem le_foldl_max (xs : List ℝ) : ∀ a : ℝ, a ≤ xs.foldl max a := by
  induction xs with
  | nil => intro a; simp
  | cons x xs ih =>
    intro a
    calc a ≤ max a x := le_max_left a x
    _ ≤ xs.foldl max (max a x) := ih (max a x)

theorem mem_le_foldl_max (xs : List ℝ) (v : ℝ) (hv : v ∈ xs) :
    ∀ a : ℝ, v ≤ xs.foldl max a := by
  induction xs with
  | nil => cases hv
  | cons x xs ih =>
    intro a
    simp only [List.foldl_cons]
    rcases List.mem_cons.mp hv with h | h
    · subst h
      calc v ≤ max a v := le_max_right a v
      _ ≤ xs.foldl max (max a v) := le_foldl_max xs (max a v)
    · exact ih h (max a x)

theorem foldl_max_cases (xs : List ℝ) :
    ∀ a : ℝ, xs.foldl max a = a ∨ xs.foldl max a ∈ xs := by
  induction xs with
  | nil => intro a; left; rfl
  | cons x xs ih =>
    intro a
    rcases ih (max a x) with h | h
    · rcases max_choice a x with hm | hm
      · left; simpa [hm] using h
      · right
        rw [List.foldl_cons, h, hm]
        exact List.mem_cons_self x xs
    · right; exact List.mem_cons_of_mem x h

theorem foldl_max_map_add (xs : List ℝ) (c : ℝ) :
    ∀ a : ℝ, (xs.map (fun v => v + c)).foldl max (a + c) = xs.foldl max a + c := by
  induction xs with
  | nil => intro a; rfl
  | cons x xs ih =>
    intro a
    simp only [List.map_cons, List.foldl_cons]
    rw [max_add_add_right, ih (max a x)]

theorem listMax_mem (l : List ℝ) (h : l ≠ []) : listMax l ∈ l := by
  cases l with
  | nil => exact absurd rfl h
  | cons x xs =>
    rcases foldl_max_cases xs x with h' | h'
    · simp [listMax, h']
    · exact List.mem_cons_of_mem x (by simpa [listMax] using h')

theorem le_listMax (l : List ℝ) (v : ℝ) (hv : v ∈ l) : v ≤ listMax l := by
  cases l with
  | nil => cases hv
  | cons x xs =>
    rcases List.mem_cons.mp hv with h | h
    · subst h; exact le_foldl_max xs v
    · exact mem_le_foldl_max xs v h x

theorem listMax_map_add (l : List ℝ) (c : ℝ) (h : l ≠ []) :
    listMax (l.map (fun v => v + c)) = listMax l + c := by
  cases l with
  | nil => exact absurd rfl h
  | cons x xs => simpa [listMax] using foldl_max_map_add xs c x

/-- `softmax_shares` from `streamlit_app_prototype.py` (lines 102-107):
return `{}` on an empty dict; otherwise subtract the maximum utility,
exponentiate, and divide each term by the sum of exponentials, with an
all-zero fallback when that sum is not positive. -/
def softmax_shares : List (String × ℝ) → List (String × ℝ)
  | [] => []
  | p :: rest =>
    let l := p :: rest
    let m := listMax (l.map Prod.snd)
    let exps := l.map fun q => (q.1, Real.exp (q.2 - m))
    let s := (exps.map Prod.snd).sum
    exps.map fun q => (q.1, if s > 0 then q.2 / s else 0)

namespace App

/-- `softmax_shares` from `streamlit_app.py` (lines 83-87): same computation,
except that the maximum is taken as `0.0` for an empty dict (the comprehensions
then still produce an empty mapping). -/
def softmax_shares (utilities : List (String × ℝ)) : List (String × ℝ) :=
  let m := match utilities with
    | [] => 0
    | _ => listMax (utilities.map Prod.snd)
  let exps := utilities.map fun q => (q.1, Real.exp (q.2 - m))
  let s := (exps.map Prod.snd).sum
  exps.map fun q => (q.1, if s > 0 then q.2 / s else 0)

end App

/-- The two source files' `softmax_shares` functions agree on every input. -/
theorem App.softmax_shares_eq (l : List (String × ℝ)) :
    App.softmax_shares l = PharmacySim.softmax_shares l := by
  cases l with
  | nil => rfl
  | cons p rest => rfl

/-- The sum of exponentials after subtracting the maximum, for a non-empty
utility list, is at least `1`: the maximal element contributes `exp 0 = 1` and
every other term is positive. -/
theorem sum_exps_ge_one (vals : List ℝ) (h : vals ≠ []) :
    1 ≤ (vals.map (fun v => Real.exp (v - listMax vals))).sum := by
  have hmem : Real.exp (listMax vals - listMax vals) ∈
      vals.map (fun v => Real.exp (v - listMax vals)) :=
    List.mem_map.mpr ⟨listMax vals, listMax_mem vals h, rfl⟩
  have hnonneg : ∀ x ∈ vals.map (fun v => Real.exp (v - listMax vals)), 0 ≤ x := by
    intro x hx
    rcases List.mem_map.mp hx with ⟨v, _, rfl⟩
    exact (Real.exp_pos _).le
  have := List.single_le_sum hnonneg _ hmem
  simpa [sub_self, Real.exp_zero] using this

/-- Dividing every element of a list by `s` divides the sum by `s`. -/
theorem sum_map_div (l : List ℝ) (s : ℝ) :
    (l.map (fun x => x / s)).sum = l.sum / s := by
  induction l with
  | nil => simp
  | cons x xs ih => simp [ih, add_div]

/-- Taking second components after pairing recovers the value map. -/
theorem map_snd_map_pair (l : List (String × ℝ)) (f : String × ℝ → ℝ) :
    (l.map (fun q => (q.1, f q))).map Prod.snd = l.map f := by
  simp [List.map_map, Function.comp_def]

/-- The sum of exponentials over pairs is at least one (non-empty list). -/
theorem sum_exps_pairs_ge_one (l : List (String × ℝ)) (h : l ≠ []) :
    1 ≤ ((l.map fun q => Real.exp (q.2 - listMax (l.map Prod.snd))).sum) := by
  have hvals : l.map Prod.snd ≠ [] := by
    cases l with
    | nil => exact absurd rfl h
    | cons p rest => simp
  have := sum_exps_ge_one (l.map Prod.snd) hvals
  calc (1 : ℝ) ≤ ((l.map Prod.snd).map
      (fun v => Real.exp (v - listMax (l.map Prod.snd)))).sum := this
  _ = ((l.map fun q => Real.exp (q.2 - listMax (l.map Prod.snd))).sum) := by
      simp [List.map_map, Function.comp_def]

/-- On a non-empty list, the fallback branch of `softmax_shares` is not taken:
every share is the exponential divided by the (positive) sum. -/
theorem softmax_shares_nonempty (p : String × ℝ) (rest : List (String × ℝ)) :
    softmax_shares (p :: rest) =
      (p :: rest).map fun q =>
        (q.1, Real.exp (q.2 - listMax ((p :: rest).map Prod.snd)) /
          (((p :: rest).map fun r =>
            Real.exp (r.2 - listMax ((p :: rest).map Prod.snd))).sum)) := by
  have hpos : 0 < (((p :: rest).map fun r =>
      Real.exp (r.2 - listMax ((p :: rest).map Prod.snd))).sum) := by
    have := sum_exps_pairs_ge_one (p :: rest) (by simp)
    linarith
  simp only [softmax_shares]
  rw [map_snd_map_pair, List.map_map]
  refine List.map_congr_left ?_
  intro q hq
  simp only [Function.comp_apply]
  rw [if_pos hpos]

/-- The shares of a singleton utility dict are `[(n, 1)]`, for any utility. -/
theorem softmax_shares_singleton (n : String) (u : ℝ) :
    softmax_shares [(n, u)] = [(n, 1)] := by
  rw [softmax_shares_nonempty]
  simp [div_self (Real.exp_ne_zero _)]

/-- The share assigned to an entry of the utility dict, as a function of the
dict's multiset of utility values and the entry's own utility alone. -/
def shareFun (vals : List ℝ) (u : ℝ) : ℝ :=
  let m := listMax vals
  let s := (vals.map fun v => Real.exp (v - m)).sum
  if s > 0 then Real.exp (u - m) / s else 0

/-- `softmax_shares` computes, for each entry, `shareFun` of its value. -/
theorem softmax_shares_eq_map_shareFun (l : List (String × ℝ)) :
    softmax_shares l = l.map fun q => (q.1, shareFun (l.map Prod.snd) q.2) := by
  cases l with
  | nil => rfl
  | cons p rest =>
    have hs : ((p :: rest).map Prod.snd).map
        (fun v => Real.exp (v - listMax ((p :: rest).map Prod.snd))) =
        (p :: rest).map fun q =>
          Real.exp (q.2 - listMax ((p :: rest).map Prod.snd)) := by
      simp [List.map_map, Function.comp_def]
    simp only [softmax_shares, shareFun]
    rw [map_snd_map_pair, List.map_map, hs]
    exact List.map_congr_left fun q _ => rfl

/-- Shifting every value by a constant leaves `shareFun` unchanged. -/
theorem shareFun_shift (vals : List ℝ) (h : vals ≠ []) (c u : ℝ) :
    shareFun (vals.map fun v => v + c) (u + c) = shareFun vals u := by
  simp only [shareFun]
  rw [listMax_map_add vals c h, List.map_map]
  simp [Function.comp_def, add_sub_add_right_eq_sub]

/-- C1: for a non-empty utility dict, the softmax share values sum to exactly
`1` (hence are within the `1e-9` tolerance of `1.0`); for an empty dict the
share mapping is empty, and the default share looked up by an absent store is
`0`, so the location contributes `demand × 0 = 0` volume to every store. -/
theorem softmax_shares_sum_one (l : List (String × ℝ)) :
    (l ≠ [] → ((softmax_shares l).map Prod.snd).sum = 1 ∧
      |((softmax_shares l).map Prod.snd).sum - 1| ≤ 1 / 1000000000) ∧
    softmax_shares ([] : List (String × ℝ)) = [] ∧
    ∀ (dem : ℝ) (n : String),
      dem * ((List.lookup n (softmax_shares ([] : List (String × ℝ)))).getD 0) = 0 := by
  refine ⟨?_, rfl, by intro dem n; simp [softmax_shares, List.lookup]⟩
  intro h
  have hsum : ((softmax_shares l).map Prod.snd).sum = 1 := by
    cases l with
    | nil => exact absurd rfl h
    | cons p rest =>
      have hpos : 0 < (((p :: rest).map fun r =>
          Real.exp (r.2 - listMax ((p :: rest).map Prod.snd))).sum) := by
        have := sum_exps_pairs_ge_one (p :: rest) (by simp)
        linarith
      rw [softmax_shares_nonempty, map_snd_map_pair]
      have hrw : ((p :: rest).map fun q =>
          Real.exp (q.2 - listMax ((p :: rest).map Prod.snd)) /
            (((p :: rest).map fun r =>
              Real.exp (r.2 - listMax ((p :: rest).map Prod.snd))).sum)) =
          ((p :: rest).map fun q =>
            Real.exp (q.2 - listMax ((p :: rest).map Prod.snd))).map
            (fun x => x / (((p :: rest).map fun r =>
              Real.exp (r.2 - listMax ((p :: rest).map Prod.snd))).sum)) := by
        simp [List.map_map, Function.comp_def]
      rw [hrw, sum_map_div, div_self (ne_of_gt hpos)]
  exact ⟨hsum, by rw [hsum]; norm_num⟩

theorem softmax_shares_sum_one_witness :
    ((softmax_shares [(("A" : String), (0 : ℝ))]).map Prod.snd).sum = 1 :=
  ((softmax_shares_sum_one [(("A" : String), (0 : ℝ))]).1 (by simp)).1

/-- C8: adding a constant `c` to every utility of a location's cohort leaves
every softmax share unchanged, and each entry's share is a function
(`shareFun`) of the cohort's value list and that entry's own utility value, so
entries with equal utilities receive equal shares. -/
theorem softmax_shift_invariance (l : List (String × ℝ)) (c : ℝ) :
    softmax_shares (l.map fun q => (q.1, q.2 + c)) = softmax_shares l ∧
    softmax_shares l = l.map fun q => (q.1, shareFun (l.map Prod.snd) q.2) := by
  refine ⟨?_, softmax_shares_eq_map_shareFun l⟩
  cases l with
  | nil => rfl
  | cons p rest =>
    rw [softmax_shares_eq_map_shareFun, softmax_shares_eq_map_shareFun,
      List.map_map]
    have hvals : ((p :: rest).map fun q => (q.1, q.2 + c)).map Prod.snd =
        ((p :: rest).map Prod.snd).map fun v => v + c := by
      simp [List.map_map, Function.comp_def]
    refine List.map_congr_left fun q hq => ?_
    simp only [Function.comp_apply, hvals]
    rw [shareFun_shift ((p :: rest).map Prod.snd) (by simp) c q.2]

/-- C9: for a non-empty utility dict the sum of exponentials computed after
subtracting the maximum utility is at least `1` (the maximal element
contributes `exp 0 = 1`), so the all-zero fallback branch of `softmax_shares`
is unreachable and every returned share lies in `[0, 1]`. -/
theorem softmax_fallback_unreachable (l : List (String × ℝ)) (h : l ≠ []) :
    1 ≤ ((l.map fun q => Real.exp (q.2 - listMax (l.map Prod.snd))).sum) ∧
    softmax_shares l = l.map (fun q => (q.1,
      Real.exp (q.2 - listMax (l.map Prod.snd)) /
        ((l.map fun r => Real.exp (r.2 - listMax (l.map Prod.snd))).sum))) ∧
    ∀ q ∈ softmax_shares l, 0 ≤ q.2 ∧ q.2 ≤ 1 := by
  cases l with
  | nil => exact absurd rfl h
  | cons p rest =>
    have hge := sum_exps_pairs_ge_one (p :: rest) (by simp)
    have hpos : 0 < (((p :: rest).map fun r =>
        Real.exp (r.2 - listMax ((p :: rest).map Prod.snd))).sum) := by linarith
    refine ⟨hge, softmax_shares_nonempty p rest, ?_⟩
    intro q hq
    rw [softmax_shares_nonempty] at hq
    rcases List.mem_map.mp hq with ⟨r, hr, rfl⟩
    constructor
    · exact div_nonneg (Real.exp_pos _).le hpos.le
    · rw [div_le_one hpos]
      have hle : r.2 ≤ listMax ((p :: rest).map Prod.snd) :=
        le_listMax _ _ (List.mem_map.mpr ⟨r, hr, rfl⟩)
      have h1 : Real.exp (r.2 - listMax ((p :: rest).map Prod.snd)) ≤ 1 :=
        Real.exp_le_one_iff.mpr (sub_nonpos.mpr hle)
      linarith

theorem softmax_fallback_unreachable_witness :
    (1 ≤ (([(("A" : String), (0 : ℝ))].map fun q =>
        Real.exp (q.2 - listMax ([(("A" : String), (0 : ℝ))].map Prod.snd))).sum)) ∧
    ∀ q ∈ softmax_shares [(("A" : String), (0 : ℝ))], 0 ≤ q.2 ∧ q.2 ≤ 1 :=
  ⟨(softmax_fallback_unreachable [(("A" : String), (0 : ℝ))] (by simp)).1,
   (softmax_fallback_unreachable [(("A" : String), (0 : ℝ))] (by simp)).2.2⟩

/-- The Decision Record: the 37 fields of the `Decisions` dataclass of
`streamlit_app_prototype.py` (lines 29-67), in source order.  Python floats
become reals and the int-typed flags/counts become naturals. -/
structure Decisions where
  location : String
  rx_markup_pct : ℝ
  rx_fee_thb : ℝ
  rx_copay_discount_thb : ℝ
  delivery : ℕ
  patient_records : ℕ
  store_credit : ℕ
  hours_per_week : ℝ
  promo_budget_thb : ℝ
  promo_rx_pct : ℝ
  invest_thb : ℝ
  invest_project : ℕ
  withdraw_thb : ℝ
  withdraw_project : ℕ
  other_markup_pct : ℝ
  rx_purchases_thb : ℝ
  other_purchases_thb : ℝ
  n_pharmacists : ℕ
  pharm_pay_rate : ℝ
  n_clerks : ℕ
  clerk_pay_rate : ℝ
  manager_salary : ℝ
  manager_time_rx_pct : ℝ
  manager_hours_per_week : ℝ
  mortgage_payment : ℝ
  sent_to_collections : ℝ
  min_cash_balance : ℝ
  rx_returns_thb : ℝ
  other_returns_thb : ℝ
  ap_payment_thb : ℝ
  lt_debt_written_thb : ℝ
  lt_debt_payment_thb : ℝ
  ar_interest_rate_pct : ℝ
  life_insurance : ℕ
  health_insurance : ℕ
  third_party : ℕ
  hmo : ℕ

/-- The Store State: the `StoreState` dataclass (lines 70-77). -/
structure StoreState where
  cash : ℝ
  ar : ℝ
  ap : ℝ
  inventory_value : ℝ
  lt_debt : ℝ
  fixed_assets : ℝ

/-- Market Configuration: the module-level `LOCATIONS`, `CITY_DEMAND`,
`LOCATION_BASE_UTILITY`, `BASE` and `ELASTIC` tables, gathered into one
explicit record (the source mutates `BASE`/`ELASTIC` between rounds through
the sidebar, so the engine is parameterized by them).  The demand and
base-utility dicts are modelled as total functions; the source accesses them
only at keys in `locations` (an access at any other key raises `KeyError`,
modelled separately by the round simulation's fail path). -/
structure Config where
  locations : List String
  demand_rx : String → ℝ
  demand_other : String → ℝ
  base_utility : String → ℝ
  rx_ingredient_cost : ℝ
  other_unit_cost : ℝ
  beta_price_rx : ℝ
  beta_price_other : ℝ
  beta_hours : ℝ
  beta_promo : ℝ
  beta_service : ℝ
  beta_thirdparty : ℝ
  beta_hmo : ℝ
  card_share : ℝ
  card_fee_pct : ℝ
  expiry_loss_pct_of_cogs : ℝ
  credit_sales_share : ℝ
  ar_collection_rate : ℝ
  periods_per_year : ℝ

/-- The constants of `streamlit_app_prototype.py` lines 9-26 (the values
before any sidebar adjustment). -/
def defaultConfig : Config where
  locations := ["MEDICAL_CENTER", "NEIGHBORHOOD", "SHOPPING_CENTER"]
  demand_rx := fun loc =>
    if loc = "MEDICAL_CENTER" then 2200
    else if loc = "NEIGHBORHOOD" then 1800
    else if loc = "SHOPPING_CENTER" then 1000 else 0
  demand_other := fun loc =>
    if loc = "MEDICAL_CENTER" then 2600
    else if loc = "NEIGHBORHOOD" then 3400
    else if loc = "SHOPPING_CENTER" then 4200 else 0
  base_utility := fun loc =>
    if loc = "MEDICAL_CENTER" then 0.20
    else if loc = "NEIGHBORHOOD" then 0.10
    else if loc = "SHOPPING_CENTER" then 0.00 else 0
  rx_ingredient_cost := 300
  other_unit_cost := 120
  beta_price_rx := -0.004
  beta_price_other := -0.0015
  beta_hours := 0.010
  beta_promo := 0.00003
  beta_service := 0.05
  beta_thirdparty := 0.06
  beta_hmo := 0.09
  card_share := 0.55
  card_fee_pct := 0.018
  expiry_loss_pct_of_cogs := 0.004
  credit_sales_share := 0.30
  ar_collection_rate := 0.50
  periods_per_year := 12

/-- `rx_effective_price` (line 80-81). -/
def rx_effective_price (cfg : Config) (d : Decisions) : ℝ :=
  max (cfg.rx_ingredient_cost * (1 + d.rx_markup_pct / 100) + d.rx_fee_thb
    - d.rx_copay_discount_thb) 0

/-- `other_price` (line 82-83). -/
def other_price (cfg : Config) (d : Decisions) : ℝ :=
  cfg.other_unit_cost * (1 + d.other_markup_pct / 100)

/-- `service_score` (line 84-85). -/
def service_score (d : Decisions) : ℝ :=
  (d.delivery : ℝ) + (d.patient_records : ℝ) + (d.store_credit : ℝ)

/-- `utility_rx` (lines 86-94). -/
def utility_rx (cfg : Config) (d : Decisions) : ℝ :=
  cfg.base_utility d.location
    + cfg.beta_price_rx * rx_effective_price cfg d
    + cfg.beta_hours * d.hours_per_week
    + cfg.beta_promo * d.promo_budget_thb * (1 + 0.5 * d.promo_rx_pct / 100)
    + cfg.beta_service * service_score d
    + cfg.beta_thirdparty * (d.third_party : ℝ)
    + cfg.beta_hmo * (d.hmo : ℝ)

/-- `utility_other` (lines 95-101). -/
def utility_other (cfg : Config) (d : Decisions) : ℝ :=
  cfg.base_utility d.location
    + cfg.beta_price_other * other_price cfg d
    + cfg.beta_hours * d.hours_per_week
    + cfg.beta_promo * d.promo_budget_thb
    + cfg.beta_service * service_score d

/-- C6: for every Decision Record, `utility_rx` equals the spec's formula
`base_utility[location] + β_price_rx · effective_rx_price + β_hours · hours +
β_promo · promo_budget · (1 + 0.5 · promo_rx_pct/100) + β_service ·
service_score + β_thirdparty · third_party + β_hmo · hmo`, where the
effective prescription price is `max (0, base_rx_cost · (1 + markup/100) +
fee − copay_discount)`. -/
theorem utility_rx_matches_spec (cfg : Config) (d : Decisions) :
    utility_rx cfg d =
      cfg.base_utility d.location
        + cfg.beta_price_rx *
          max 0 (cfg.rx_ingredient_cost * (1 + d.rx_markup_pct / 100)
            + d.rx_fee_thb - d.rx_copay_discount_thb)
        + cfg.beta_hours * d.hours_per_week
        + cfg.beta_promo * d.promo_budget_thb * (1 + 0.5 * d.promo_rx_pct / 100)
        + cfg.beta_service *
          ((d.delivery : ℝ) + (d.patient_records : ℝ) + (d.store_credit : ℝ))
        + cfg.beta_thirdparty * (d.third_party : ℝ)
        + cfg.beta_hmo * (d.hmo : ℝ) ∧
    rx_effective_price cfg d =
      max 0 (cfg.rx_ingredient_cost * (1 + d.rx_markup_pct / 100)
        + d.rx_fee_thb - d.rx_copay_discount_thb) := by
  constructor
  · rw [utility_rx, rx_effective_price, service_score, max_comm]
  · rw [rx_effective_price, max_comm]

/-- The per-store results record emitted by `simulate_round` (lines 210-245),
carrying the intermediate quantities unrounded: the source applies
`round(·, 2)` (`round(·, 4)` for utilities) when filling the dict, a
presentation convention of the external layer per the design, while the state
carried across rounds is unrounded. -/
structure RoundResult where
  location : String
  rx_scripts : ℝ
  other_units : ℝ
  rx_price : ℝ
  other_price : ℝ
  sales_total : ℝ
  cogs : ℝ
  expiry_loss : ℝ
  merchant_fee : ℝ
  promo_cost : ℝ
  labor_cash : ℝ
  gross_profit : ℝ
  net_profit : ℝ
  cash_in_sales : ℝ
  ar_new : ℝ
  ar_collections : ℝ
  ar_interest_income : ℝ
  ap_payment : ℝ
  invest : ℝ
  withdraw : ℝ
  mortgage_payment : ℝ
  lt_debt_payment : ℝ
  sent_to_agency : ℝ
  overdraft_topup : ℝ
  cash_end : ℝ
  ar_end : ℝ
  ap_end : ℝ
  inventory_end : ℝ
  lt_debt_end : ℝ
  fixed_assets_end : ℝ
  u_rx : ℝ
  u_other : ℝ

/-- The per-store body of `simulate_round` (lines 121-245): given the two
share values already looked up for this store (`shares_rx[loc].get(name,0.0)`
and the other-stream analogue), apply the accounting pipeline to the store's
state.  The `ar_interest_income` branch mirrors lines 154-157 (the addition to
AR happens only under the `store_credit` flag); the overdraft branch mirrors
lines 200-205. -/
def store_round (cfg : Config) (shareRx shareOth : ℝ) (d : Decisions)
    (s : StoreState) : RoundResult × StoreState :=
  let rx_scripts := cfg.demand_rx d.location * shareRx
  let other_units := cfg.demand_other d.location * shareOth
  let rx_p := rx_effective_price cfg d
  let oth_p := other_price cfg d
  let rx_sales := rx_scripts * rx_p
  let other_sales := other_units * oth_p
  let sales_total := rx_sales + other_sales
  let cogs := rx_scripts * cfg.rx_ingredient_cost + other_units * cfg.other_unit_cost
  let expiry_loss := cogs * cfg.expiry_loss_pct_of_cogs
  let merchant_fee := sales_total * cfg.card_share * cfg.card_fee_pct
  let credit_share := if d.store_credit = 1 then cfg.credit_sales_share else 0
  let cash_now := sales_total * (1 - credit_share)
  let card_fee_deduction := merchant_fee
  let cash_in_sales := cash_now - card_fee_deduction
  let ar_collections := s.ar * cfg.ar_collection_rate
  let ar1 := s.ar - ar_collections
  let iPair : ℝ × ℝ :=
    if d.store_credit = 1 then
      (ar1 * (d.ar_interest_rate_pct / 100) / cfg.periods_per_year,
       ar1 + ar1 * (d.ar_interest_rate_pct / 100) / cfg.periods_per_year)
    else (0, ar1)
  let ar_interest_income := iPair.1
  let ar2 := iPair.2
  let new_ar := sales_total * credit_share
  let ar3 := ar2 + new_ar
  let net_purchases := d.rx_purchases_thb + d.other_purchases_thb
    - d.rx_returns_thb - d.other_returns_thb
  let inventory := s.inventory_value + net_purchases - cogs - expiry_loss
  let ap1 := s.ap + max net_purchases 0
  let ap_payment := min d.ap_payment_thb ap1
  let ap2 := ap1 - ap_payment
  let fixed_assets := s.fixed_assets + d.invest_thb - d.withdraw_thb
  let cash_flow_invest := -d.invest_thb + d.withdraw_thb
  let lt_debt := max (s.lt_debt - d.lt_debt_written_thb - d.lt_debt_payment_thb) 0
  let cash_flow_debt := -d.lt_debt_payment_thb
  let cash_flow_mortgage := -d.mortgage_payment
  let sent_to_agency := min d.sent_to_collections ar3
  let ar4 := ar3 - sent_to_agency
  let cash_flow_promo := -d.promo_budget_thb
  let weeks : ℝ := 4.33
  let labor_cash := (d.n_pharmacists : ℝ) * d.pharm_pay_rate * d.hours_per_week * weeks
    + (d.n_clerks : ℝ) * d.clerk_pay_rate * d.hours_per_week * weeks
    + d.manager_salary
  let cash_delta := cash_in_sales + ar_collections + ar_interest_income
    + cash_flow_invest + cash_flow_debt + cash_flow_mortgage + cash_flow_promo
    - ap_payment - labor_cash
  let cash1 := s.cash + cash_delta
  let overdraft := if cash1 < d.min_cash_balance then d.min_cash_balance - cash1 else 0
  let cash2 := cash1 + overdraft
  let gp := sales_total - cogs - expiry_loss
  let net_profit := gp - (merchant_fee + d.promo_budget_thb + labor_cash)
  (⟨d.location, rx_scripts, other_units, rx_p, oth_p, sales_total, cogs,
    expiry_loss, merchant_fee, d.promo_budget_thb, labor_cash, gp, net_profit,
    cash_in_sales, new_ar, ar_collections, ar_interest_income, ap_payment,
    d.invest_thb, d.withdraw_thb, d.mortgage_payment, d.lt_debt_payment_thb,
    sent_to_agency, overdraft, cash2, ar4, ap2, inventory, lt_debt,
    fixed_assets, utility_rx cfg d, utility_other cfg d⟩,
   ⟨cash2, ar4, ap2, inventory, lt_debt, fixed_assets⟩)

/-- The prescription-stream utility dict built for one location
(`{name: utility_rx(decisions[name]) for name in by_loc[loc]}`, line 115,
with `by_loc` the per-location grouping of line 112). -/
def utilsRx (cfg : Config) (decisions : List (String × Decisions))
    (loc : String) : List (String × ℝ) :=
  (decisions.filter fun p => p.2.location == loc).map fun p =>
    (p.1, utility_rx cfg p.2)

/-- The other-stream utility dict built for one location (line 116). -/
def utilsOther (cfg : Config) (decisions : List (String × Decisions))
    (loc : String) : List (String × ℝ) :=
  (decisions.filter fun p => p.2.location == loc).map fun p =>
    (p.1, utility_other cfg p.2)

/-- The per-store loop of `simulate_round` (lines 120-245), processing the
decision records in iteration order and threading the mutable state dict.
Reaching a store whose location is not a key of `CITY_DEMAND` (equivalently,
not a member of `LOCATIONS`) raises a `KeyError` at line 126: the loop stops,
no results are returned (`none`), and the states mutated so far remain. -/
def roundGo (cfg : Config) (shR shO : String → List (String × ℝ)) :
    List (String × Decisions) → (String → StoreState) →
    List (String × RoundResult) →
    Option (List (String × RoundResult)) × (String → StoreState)
  | [], states, acc => (some acc.reverse, states)
  | (name, d) :: rest, states, acc =>
    if d.location ∈ cfg.locations then
      let out := store_round cfg (((shR d.location).lookup name).getD 0)
        (((shO d.location).lookup name).getD 0) d (states name)
      roundGo cfg shR shO rest
        (fun n => if n = name then out.2 else states n) ((name, out.1) :: acc)
    else
      (none, states)

/-- `simulate_round` (lines 110-246): compute the per-location share maps from
all decisions, then run the per-store accounting loop.  The first component is
`some results` on normal completion and `none` when the loop raised; the
second component is the state dict as left by the (possibly interrupted)
loop. -/
def simulate_round (cfg : Config) (decisions : List (String × Decisions))
    (states : String → StoreState) :
    Option (List (String × RoundResult)) × (String → StoreState) :=
  roundGo cfg (fun loc => softmax_shares (utilsRx cfg decisions loc))
    (fun loc => softmax_shares (utilsOther cfg decisions loc))
    decisions states []

/-- The state updates performed by a run of the per-store loop over a list of
stores that all pass the location check (used to describe the states left
behind when a later store fails the check). -/
def foldStores (cfg : Config) (shR shO : String → List (String × ℝ)) :
    List (String × Decisions) → (String → StoreState) → (String → StoreState)
  | [], states => states
  | (name, d) :: rest, states =>
    foldStores cfg shR shO rest
      (fun n => if n = name then
          (store_round cfg (((shR d.location).lookup name).getD 0)
            (((shO d.location).lookup name).getD 0) d (states name)).2
        else states n)

/-- A Decision Record with every monetary field `0` and every flag `0`. -/
def noActivityDecision (loc : String) : Decisions :=
  ⟨loc, 0, 0, 0, 0, 0, 0, 0, 0, 0, 0, 0, 0, 0, 0, 0, 0, 0, 0, 0, 0, 0, 0, 0,
   0, 0, 0, 0, 0, 0, 0, 0, 0, 0, 0, 0, 0⟩

/-- The initial `StoreState()` of the source (lines 70-77 defaults). -/
def defaultState : StoreState :=
  ⟨200000, 0, 0, 200000, 0, 0⟩

/-- A non-negative Decision Record whose withdrawal exceeds the store's fixed
assets plus its investment. -/
def withdrawDecision : Decisions :=
  { noActivityDecision "MEDICAL_CENTER" with withdraw_thb := 100 }

/-- C2: for every store in a simulated round (the per-store body
`store_round`, applied by `simulate_round` to each decision record), ending
cash minus starting cash equals the itemized cash-effect terms of the cash
update — cash from sales net of merchant fee, AR collections, AR interest
income, withdraw minus invest, minus long-term-debt payment, minus mortgage,
minus promotion, minus AP payment, minus labor cash — plus the overdraft
top-up. -/
theorem round_cash_conservation (cfg : Config) (sR sO : ℝ) (d : Decisions)
    (s : StoreState) :
    ((store_round cfg sR sO d s).2).cash - s.cash =
      (store_round cfg sR sO d s).1.cash_in_sales
      + (store_round cfg sR sO d s).1.ar_collections
      + (store_round cfg sR sO d s).1.ar_interest_income
      + ((store_round cfg sR sO d s).1.withdraw
        - (store_round cfg sR sO d s).1.invest)
      - (store_round cfg sR sO d s).1.lt_debt_payment
      - (store_round cfg sR sO d s).1.mortgage_payment
      - (store_round cfg sR sO d s).1.promo_cost
      - (store_round cfg sR sO d s).1.ap_payment
      - (store_round cfg sR sO d s).1.labor_cash
      + (store_round cfg sR sO d s).1.overdraft_topup := by
  simp only [store_round]
  ring

/-- Ending AR is never negative: the agency transfer is clamped to the AR
balance. -/
theorem store_round_ar_nonneg (cfg : Config) (sR sO : ℝ) (d : Decisions)
    (s : StoreState) : 0 ≤ ((store_round cfg sR sO d s).2).ar := by
  simp only [store_round]
  exact sub_nonneg.mpr (min_le_right _ _)

/-- Ending AP is never negative: the AP payment is clamped to the AP
balance. -/
theorem store_round_ap_nonneg (cfg : Config) (sR sO : ℝ) (d : Decisions)
    (s : StoreState) : 0 ≤ ((store_round cfg sR sO d s).2).ap := by
  simp only [store_round]
  exact sub_nonneg.mpr (min_le_right _ _)

/-- Ending long-term debt is never negative (floored at `0`). -/
theorem store_round_lt_debt_nonneg (cfg : Config) (sR sO : ℝ) (d : Decisions)
    (s : StoreState) : 0 ≤ ((store_round cfg sR sO d s).2).lt_debt := by
  simp only [store_round]
  exact le_max_right _ _

/-- C4 (amended): after a round, `accounts_receivable`, `accounts_payable`
and `long_term_debt` are ≥ 0 (clamped where the model requires), but
`inventory_value` is updated by `net_purchases − cogs − expiry_loss` with no
lower clamp, so it is not invariant to remain ≥ 0. -/
theorem balances_nonneg_after_round (cfg : Config) (sR sO : ℝ) (d : Decisions)
    (s : StoreState) :
    0 ≤ ((store_round cfg sR sO d s).2).ar ∧
    0 ≤ ((store_round cfg sR sO d s).2).ap ∧
    0 ≤ ((store_round cfg sR sO d s).2).lt_debt ∧
    ((store_round cfg sR sO d s).2).inventory_value =
      s.inventory_value
        + (d.rx_purchases_thb + d.other_purchases_thb - d.rx_returns_thb
          - d.other_returns_thb)
        - (store_round cfg sR sO d s).1.cogs
        - (store_round cfg sR sO d s).1.expiry_loss :=
  ⟨store_round_ar_nonneg cfg sR sO d s, store_round_ap_nonneg cfg sR sO d s,
   store_round_lt_debt_nonneg cfg sR sO d s, rfl⟩

/-- C7: with valid non-negative inputs (collection rate in `[0,1]`,
non-negative prior AR/AP, interest rate, computed sales and agency amount,
positive periods-per-year), the ending AR and AP after collections, interest
accrual, new credit sales, AP settlement and the agency transfer are ≥ 0, and
the AP payment and agency transfer never exceed the requested amounts (they
are clamped to the available balances rather than driving AP or AR
negative). -/
theorem ar_ap_clamped_nonneg (cfg : Config) (sR sO : ℝ) (d : Decisions)
    (s : StoreState)
    (_har : 0 ≤ s.ar) (_hap : 0 ≤ s.ap)
    (_hr0 : 0 ≤ cfg.ar_collection_rate) (_hr1 : cfg.ar_collection_rate ≤ 1)
    (_hppy : 0 < cfg.periods_per_year) (_hir : 0 ≤ d.ar_interest_rate_pct)
    (_hsc : 0 ≤ d.sent_to_collections)
    (_hst : 0 ≤ (store_round cfg sR sO d s).1.sales_total) :
    0 ≤ ((store_round cfg sR sO d s).2).ar ∧
    0 ≤ ((store_round cfg sR sO d s).2).ap ∧
    (store_round cfg sR sO d s).1.ap_payment ≤ d.ap_payment_thb ∧
    (store_round cfg sR sO d s).1.sent_to_agency ≤ d.sent_to_collections := by
  refine ⟨store_round_ar_nonneg cfg sR sO d s,
    store_round_ap_nonneg cfg sR sO d s, ?_, ?_⟩
  · simp only [store_round]
    exact min_le_left _ _
  · simp only [store_round]
    exact min_le_left _ _

theorem ar_ap_clamped_nonneg_witness :
    0 ≤ ((store_round defaultConfig 0 0 (noActivityDecision "MEDICAL_CENTER")
        defaultState).2).ar ∧
    0 ≤ ((store_round defaultConfig 0 0 (noActivityDecision "MEDICAL_CENTER")
        defaultState).2).ap ∧
    (store_round defaultConfig 0 0 (noActivityDecision "MEDICAL_CENTER")
        defaultState).1.ap_payment ≤
      (noActivityDecision "MEDICAL_CENTER").ap_payment_thb ∧
    (store_round defaultConfig 0 0 (noActivityDecision "MEDICAL_CENTER")
        defaultState).1.sent_to_agency ≤
      (noActivityDecision "MEDICAL_CENTER").sent_to_collections :=
  ar_ap_clamped_nonneg defaultConfig 0 0 (noActivityDecision "MEDICAL_CENTER")
    defaultState (by norm_num [defaultState]) (by norm_num [defaultState])
    (by norm_num [defaultConfig]) (by norm_num [defaultConfig])
    (by norm_num [defaultConfig]) (by norm_num [noActivityDecision])
    (by norm_num [noActivityDecision])
    (by simp only [store_round]; norm_num)

/-- C10: fixed assets are updated by exactly `invest − withdraw` with no
lower clamp — for the non-negative Decision Record `withdrawDecision`, whose
withdrawal exceeds the store's prior fixed assets plus its investment, the
ending fixed assets are strictly negative — unlike long-term debt, which is
floored at `0` in every round. -/
theorem fixed_assets_no_floor :
    (∀ (cfg : Config) (sR sO : ℝ) (d : Decisions) (s : StoreState),
      ((store_round cfg sR sO d s).2).fixed_assets =
        s.fixed_assets + d.invest_thb - d.withdraw_thb) ∧
    (defaultState.fixed_assets + withdrawDecision.invest_thb
        < withdrawDecision.withdraw_thb ∧
      ((store_round defaultConfig 1 1 withdrawDecision defaultState).2).fixed_assets
        < 0) ∧
    (∀ (cfg : Config) (sR sO : ℝ) (d : Decisions) (s : StoreState),
      0 ≤ ((store_round cfg sR sO d s).2).lt_debt) := by
  refine ⟨fun cfg sR sO d s => rfl, ⟨?_, ?_⟩,
    fun cfg sR sO d s => store_round_lt_debt_nonneg cfg sR sO d s⟩
  · norm_num [withdrawDecision, noActivityDecision, defaultState]
  · have h : ((store_round defaultConfig 1 1 withdrawDecision defaultState).2).fixed_assets
        = defaultState.fixed_assets + withdrawDecision.invest_thb
          - withdrawDecision.withdraw_thb := rfl
    rw [h]
    norm_num [withdrawDecision, noActivityDecision, defaultState]

/-- A store alone in the decisions dict is the only member of its location's
cohort. -/
theorem utilsRx_singleton (cfg : Config) (n : String) (d : Decisions) :
    utilsRx cfg [(n, d)] d.location = [(n, utility_rx cfg d)] := by
  simp [utilsRx]

theorem utilsOther_singleton (cfg : Config) (n : String) (d : Decisions) :
    utilsOther cfg [(n, d)] d.location = [(n, utility_other cfg d)] := by
  simp [utilsOther]

/-- A round with a single store at a valid location gives that store the full
share (`1`) of both streams at its location and updates only its state. -/
theorem simulate_round_singleton (cfg : Config) (n : String) (d : Decisions)
    (st : String → StoreState) (h : d.location ∈ cfg.locations) :
    simulate_round cfg [(n, d)] st =
      (some [(n, (store_round cfg 1 1 d (st n)).1)],
       fun m => if m = n then (store_round cfg 1 1 d (st n)).2 else st m) := by
  simp only [simulate_round, roundGo, if_pos h, utilsRx_singleton,
    utilsOther_singleton, softmax_shares_singleton, List.lookup,
    beq_self_eq_true, Option.getD_some, List.reverse_cons, List.reverse_nil,
    List.nil_append]

/-- A no-activity store alone at `MEDICAL_CENTER` under the default
configuration still transacts: it receives the full location demand (2200
scripts, 2600 units), sells at the pure-cost prices (300 and 120), collects
`sales − merchant fee = 972000 − 9622.8 = 962377.2` in cash plus half of its
prior AR, and writes `cogs + expiry loss = 975888` off inventory. -/
theorem noact_default_round (s : StoreState) (hc : 0 ≤ s.cash)
    (har : 0 ≤ s.ar) (hap : 0 ≤ s.ap) (hlt : 0 ≤ s.lt_debt) :
    (store_round defaultConfig 1 1 (noActivityDecision "MEDICAL_CENTER") s).2 =
      ⟨s.cash + 962377.2 + s.ar * 0.5, s.ar * 0.5, s.ap,
       s.inventory_value - 975888, s.lt_debt, s.fixed_assets⟩ := by
  simp only [store_round, noActivityDecision, defaultConfig,
    rx_effective_price, other_price]
  norm_num [max_def, min_def, StoreState.mk.injEq]
  split_ifs <;> and_intros <;> intros <;> linarith

/-- C3 counterexample: a store whose Decision Record has every monetary field
and flag at `0`, alone at `MEDICAL_CENTER` with prior AR `10000`, does not
keep its cash unchanged over a round under the default configuration — the
demand allocation still assigns it the full location demand and the collected
receivables are deposited to cash. -/
theorem no_activity_round_changes_state :
    ((simulate_round defaultConfig
        [("A", noActivityDecision "MEDICAL_CENTER")]
        (fun _ => (⟨200000, 10000, 0, 200000, 0, 0⟩ : StoreState))).2 "A").cash ≠
      (⟨200000, 10000, 0, 200000, 0, 0⟩ : StoreState).cash := by
  rw [simulate_round_singleton defaultConfig "A"
    (noActivityDecision "MEDICAL_CENTER") _
    (by simp [noActivityDecision, defaultConfig])]
  simp only [if_pos rfl]
  rw [noact_default_round ⟨200000, 10000, 0, 200000, 0, 0⟩ (by norm_num)
    (by norm_num) (by norm_num) (by norm_num)]
  norm_num

/-- C3 (amended): a no-activity Decision Record leaves `ap`,
`inventory_value`, `lt_debt` and `fixed_assets` unchanged and bleeds AR to
`ar × (1 − collection_rate)` — provided the store's location has zero demand
in both streams (otherwise the store still transacts) and the starting
balances are non-negative; cash is not unchanged but grows by the collected
`ar × collection_rate` (so it is unchanged exactly when prior AR is zero). -/
theorem no_activity_round_frame (cfg : Config) (loc : String) (sR sO : ℝ)
    (s : StoreState)
    (hdr : cfg.demand_rx loc = 0) (hdo : cfg.demand_other loc = 0)
    (hc : 0 ≤ s.cash) (har : 0 ≤ s.ar) (hap : 0 ≤ s.ap) (hlt : 0 ≤ s.lt_debt)
    (hr0 : 0 ≤ cfg.ar_collection_rate) (hr1 : cfg.ar_collection_rate ≤ 1) :
    (store_round cfg sR sO (noActivityDecision loc) s).2 =
      ⟨s.cash + s.ar * cfg.ar_collection_rate,
       s.ar * (1 - cfg.ar_collection_rate), s.ap, s.inventory_value,
       s.lt_debt, s.fixed_assets⟩ := by
  have h1 : 0 ≤ s.ar * (1 - cfg.ar_collection_rate) :=
    mul_nonneg har (by linarith)
  have h2 : s.ar * (1 - cfg.ar_collection_rate) =
      s.ar - s.ar * cfg.ar_collection_rate := by ring
  have h3 : 0 ≤ s.ar * cfg.ar_collection_rate := mul_nonneg har hr0
  simp only [store_round, noActivityDecision, rx_effective_price, other_price]
  norm_num [hdr, hdo, max_def, min_def, StoreState.mk.injEq]
  split_ifs <;> and_intros <;> intros <;> linarith

/-- The default configuration with both demand streams zeroed out (demand is
part of the Market Configuration; all other parameters keep their source
values). -/
def zeroDemandConfig : Config :=
  { defaultConfig with demand_rx := fun _ => 0, demand_other := fun _ => 0 }

theorem no_activity_round_frame_witness :
    (store_round zeroDemandConfig 1 1 (noActivityDecision "MEDICAL_CENTER")
        (⟨100, 40, 10, 5, 7, 3⟩ : StoreState)).2 =
      ⟨120, 20, 10, 5, 7, 3⟩ := by
  have h := no_activity_round_frame zeroDemandConfig "MEDICAL_CENTER" 1 1
    ⟨100, 40, 10, 5, 7, 3⟩ rfl rfl (by norm_num) (by norm_num) (by norm_num)
    (by norm_num) (by norm_num [zeroDemandConfig, defaultConfig])
    (by norm_num [zeroDemandConfig, defaultConfig])
  rw [h]
  norm_num [zeroDemandConfig, defaultConfig, StoreState.mk.injEq]

/-- C4 counterexample: starting from the source's initial state (inventory
`200000`), one round of a no-activity store alone at `MEDICAL_CENTER` under
the default configuration drives `inventory_value` to `−775888 < 0` — the
inventory update `+ net_purchases − cogs − expiry_loss` has no lower clamp. -/
theorem inventory_negative_after_round :
    ((simulate_round defaultConfig
        [("A", noActivityDecision "MEDICAL_CENTER")]
        (fun _ => defaultState)).2 "A").inventory_value < 0 := by
  rw [simulate_round_singleton defaultConfig "A"
    (noActivityDecision "MEDICAL_CENTER") _
    (by simp [noActivityDecision, defaultConfig])]
  simp only [if_pos rfl]
  rw [noact_default_round defaultState (by norm_num [defaultState])
    (by norm_num [defaultState]) (by norm_num [defaultState])
    (by norm_num [defaultState])]
  norm_num [defaultState]

/-- The per-store loop, reaching a store whose location fails the membership
check after a prefix of valid stores, stops with no results and with exactly
the prefix's state updates applied. -/
theorem roundGo_stops (cfg : Config) (shR shO : String → List (String × ℝ))
    (n : String) (d : Decisions) (hbad : d.location ∉ cfg.locations) :
    ∀ (pre post : List (String × Decisions)) (states : String → StoreState)
      (acc : List (String × RoundResult)),
      (∀ p ∈ pre, p.2.location ∈ cfg.locations) →
      roundGo cfg shR shO (pre ++ (n, d) :: post) states acc =
        (none, foldStores cfg shR shO pre states) := by
  intro pre
  induction pre with
  | nil =>
    intro post states acc _
    simp [roundGo, foldStores, hbad]
  | cons q rest ih =>
    intro post states acc hpre
    obtain ⟨name, e⟩ := q
    have hq : e.location ∈ cfg.locations :=
      hpre (name, e) (List.mem_cons_self _ _)
    simp only [List.cons_append, roundGo, if_pos hq, foldStores]
    exact ih post _ _ (fun p hp => hpre p (List.mem_cons_of_mem _ hp))

/-- C5 (amended): a Decision Record referencing a location outside the
configured locations makes the round fail (no results are produced) when the
per-store loop reaches it, before that store's own state is touched; but the
stores earlier in iteration order have already been updated, so the round can
be partially applied — the final states are exactly the fold of the per-store
update over the prefix preceding the offending record (when the offending
record comes first, the states are untouched). -/
theorem unknown_location_stops_round (cfg : Config)
    (pre post : List (String × Decisions)) (n : String) (d : Decisions)
    (states : String → StoreState)
    (hpre : ∀ p ∈ pre, p.2.location ∈ cfg.locations)
    (hbad : d.location ∉ cfg.locations) :
    (simulate_round cfg (pre ++ (n, d) :: post) states).1 = none ∧
    (simulate_round cfg (pre ++ (n, d) :: post) states).2 =
      foldStores cfg
        (fun loc => softmax_shares (utilsRx cfg (pre ++ (n, d) :: post) loc))
        (fun loc => softmax_shares (utilsOther cfg (pre ++ (n, d) :: post) loc))
        pre states := by
  have h := roundGo_stops cfg
    (fun loc => softmax_shares (utilsRx cfg (pre ++ (n, d) :: post) loc))
    (fun loc => softmax_shares (utilsOther cfg (pre ++ (n, d) :: post) loc))
    n d hbad pre post states [] hpre
  rw [simulate_round, h]
  exact ⟨rfl, rfl⟩

theorem unknown_location_stops_round_witness :
    (simulate_round defaultConfig
        [("A", noActivityDecision "MEDICAL_CENTER"),
         ("B", noActivityDecision "NOWHERE")] (fun _ => defaultState)).1 =
      none :=
  (unknown_location_stops_round defaultConfig
    [("A", noActivityDecision "MEDICAL_CENTER")] [] "B"
    (noActivityDecision "NOWHERE") (fun _ => defaultState)
    (by
      intro p hp
      rcases List.mem_singleton.mp hp with rfl
      simp [noActivityDecision, defaultConfig])
    (by simp [noActivityDecision, defaultConfig])).1

/-- C5 counterexample: with store `A` (valid location, no-activity decision)
listed before store `B` whose Decision Record references the unknown location
`"NOWHERE"`, the round fails — yet store `A`'s state has already been
mutated, so the failure does not happen before all state mutation. -/
theorem unknown_location_mutates_earlier_stores :
    (simulate_round defaultConfig
        [("A", noActivityDecision "MEDICAL_CENTER"),
         ("B", noActivityDecision "NOWHERE")] (fun _ => defaultState)).1 =
      none ∧
    ((simulate_round defaultConfig
        [("A", noActivityDecision "MEDICAL_CENTER"),
         ("B", noActivityDecision "NOWHERE")] (fun _ => defaultState)).2
      "A").cash ≠ defaultState.cash := by
  have h := roundGo_stops defaultConfig
    (fun loc => softmax_shares (utilsRx defaultConfig
      [("A", noActivityDecision "MEDICAL_CENTER"),
       ("B", noActivityDecision "NOWHERE")] loc))
    (fun loc => softmax_shares (utilsOther defaultConfig
      [("A", noActivityDecision "MEDICAL_CENTER"),
       ("B", noActivityDecision "NOWHERE")] loc))
    "B" (noActivityDecision "NOWHERE")
    (by simp [noActivityDecision, defaultConfig])
    [("A", noActivityDecision "MEDICAL_CENTER")] [] (fun _ => defaultState) []
    (by
      intro p hp
      rcases List.mem_singleton.mp hp with rfl
      simp [noActivityDecision, defaultConfig])
  simp only [List.cons_append, List.nil_append] at h
  constructor
  · rw [simulate_round, h]
  · rw [simulate_round, h]
    have hu : utilsRx defaultConfig
        [("A", noActivityDecision "MEDICAL_CENTER"),
         ("B", noActivityDecision "NOWHERE")] "MEDICAL_CENTER" =
        [("A", utility_rx defaultConfig (noActivityDecision "MEDICAL_CENTER"))] := by
      simp [utilsRx, noActivityDecision]
    have ho : utilsOther defaultConfig
        [("A", noActivityDecision "MEDICAL_CENTER"),
         ("B", noActivityDecision "NOWHERE")] "MEDICAL_CENTER" =
        [("A", utility_other defaultConfig (noActivityDecision "MEDICAL_CENTER"))] := by
      simp [utilsOther, noActivityDecision]
    show ((store_round defaultConfig
        ((List.lookup "A" (softmax_shares (utilsRx defaultConfig
          [("A", noActivityDecision "MEDICAL_CENTER"),
           ("B", noActivityDecision "NOWHERE")] "MEDICAL_CENTER"))).getD 0)
        ((List.lookup "A" (softmax_shares (utilsOther defaultConfig
          [("A", noActivityDecision "MEDICAL_CENTER"),
           ("B", noActivityDecision "NOWHERE")] "MEDICAL_CENTER"))).getD 0)
        (noActivityDecision "MEDICAL_CENTER") defaultState).2).cash ≠
      defaultState.cash
    rw [hu, ho, softmax_shares_singleton, softmax_shares_singleton]
    simp only [List.lookup, beq_self_eq_true, Option.getD_some]
    rw [noact_default_round defaultState (by norm_num [defaultState])
      (by norm_num [defaultState]) (by norm_num [defaultState])
      (by norm_num [defaultState])]
    norm_num [defaultState]

end PharmacySim
